import Mathlib

/-!
Verification of the name-collection engine (class NameCollector) of the
quint name-resolution layer.

The TypeScript class is embedded shallowly: the mutable visitor state becomes
the structure NameCollector, each method becomes a pure function from state to
state, and JavaScript Map objects become association lists with the usual
first-match lookup (a Map never holds two entries with the same key, and the
list operations below coincide with the Map operations on key-unique lists).

Helpers that the class imports from neighbouring files that are not part of
the given sources (builtinNames, copyNames, addNamespacesToDef, qualifier and
the error constructors of importErrors) are modelled from the specification;
each such definition carries a doc comment starting with
"Modelled from the spec:".
-/

namespace Quint

/-- A structured diagnostic: a stable code, a message, and the source identity
(a parser-assigned id, a bigint in the source, here a Nat) the diagnostic is
anchored to.  The always-empty data field of the source is omitted. -/
structure QuintError where
  code : String
  message : String
  reference : Nat
deriving DecidableEq, Repr

/-- The kind tag of a collected definition. -/
inductive DefKind where
  | var
  | const
  | opdef
  | typedef
  | assume
deriving DecidableEq, Repr

/-- An import declaration: module name, optional qualifier, optional single
definition name (the name "*" means import all). -/
structure QuintImport where
  id : Nat
  protoName : String
  qualifiedName : Option String := none
  defName : Option String := none
deriving DecidableEq, Repr

/-- An export declaration, with the same shape as an import declaration. -/
structure QuintExport where
  id : Nat
  protoName : String
  qualifiedName : Option String := none
  defName : Option String := none
deriving DecidableEq, Repr

/-- An expression: only its source identity matters to the collector. -/
structure QuintEx where
  id : Nat
deriving DecidableEq, Repr

/-- A parameter reference inside an instance override. -/
structure QuintLambdaParameter where
  id : Nat
  name : String
deriving DecidableEq, Repr

/-- An instance declaration: the instantiated module, an optional qualifier,
and the list of constant overrides. -/
structure QuintInstance where
  id : Nat
  protoName : String
  qualifiedName : Option String := none
  overrides : List (QuintLambdaParameter × QuintEx) := []
deriving DecidableEq, Repr

/-- A module header: only the id and the name matter to the collector. -/
structure QuintModule where
  id : Nat
  name : String
deriving DecidableEq, Repr

/-- The provenance marker of a collected definition: the import, export or
instance declaration that brought it into the current scope. -/
inductive ImportedFrom where
  | imp : QuintImport → ImportedFrom
  | exp : QuintExport → ImportedFrom
  | inst : QuintInstance → ImportedFrom
deriving DecidableEq, Repr

/-- The source identity of the declaration behind a provenance marker. -/
def ImportedFrom.declId : ImportedFrom → Nat
  | .imp d => d.id
  | .exp d => d.id
  | .inst d => d.id

/-- The defName property read by collectDefinition: the TypeScript code casts
the declaration to QuintImport and reads defName, which yields the defName
field for imports and exports and undefined for instances. -/
def ImportedFrom.defNameOf : ImportedFrom → Option String
  | .imp d => d.defName
  | .exp d => d.defName
  | .inst _ => none

/-- One collected definition record: kind tag, name, source identity, optional
nesting depth, accumulated namespace prefixes, and provenance. -/
structure LookupDefinition where
  kind : DefKind
  name : String
  id : Nat
  depth : Option Nat := none
  namespaces : List String := []
  importedFrom : Option ImportedFrom := none
deriving DecidableEq, Repr

/-- A definition table: a JavaScript Map from identifier to definition,
as an association list. -/
abbrev DefinitionsByName := List (String × LookupDefinition)

/-- The module registry: a JavaScript Map from module name to that module
table, as an association list. -/
abbrev DefinitionsByModule := List (String × DefinitionsByName)

/-- Map.get: the value at the first (on a Map, the only) entry for the key. -/
def getEntry {α : Type} : List (String × α) → String → Option α
  | [], _ => none
  | (k, v) :: rest, key => if k = key then some v else getEntry rest key

/-- Map.set: replace the value of the existing entry in place, or append a new
entry at the end. -/
def setEntry {α : Type} : List (String × α) → String → α → List (String × α)
  | [], key, value => [(key, value)]
  | (k, v) :: rest, key, value =>
    if k = key then (key, value) :: rest else (k, v) :: setEntry rest key value

/-- Map.delete: remove the entry for the key.  A Map holds at most one entry
per key, so removing every pair with the key coincides with Map.delete on
every list that represents a Map. -/
def deleteEntry {α : Type} : List (String × α) → String → List (String × α)
  | [], _ => []
  | (k, v) :: rest, key =>
    if k = key then deleteEntry rest key else (k, v) :: deleteEntry rest key

/-- Setting a batch of entries in order; the content of
new Map([...old.entries(), ...newEntries]), where later entries for a key
overwrite earlier ones. -/
def setMany {α : Type} : List (String × α) → List (String × α) → List (String × α)
  | t, [] => t
  | t, p :: rest => setMany (setEntry t p.1 p.2) rest

/-- Modelled from the spec: the reserved built-in vocabulary (builtinNames is
imported from base, which is not among the given sources).  The spec fixes no
concrete list; these names are used as built-in operators by the example
modules of the repository. -/
def builtinNames : List String :=
  ["assert", "oneOf", "Int", "Bool", "Nat", "Set", "List", "Map"]

/-- lodash compact on strings: drops the falsy elements, i.e. the empty
strings. -/
def compact (xs : List String) : List String :=
  xs.filter (fun x => x != "")

/-- Modelled from the spec: the qualifier of an import or export declaration
(quintIr is not among the given sources): the declared qualifier when present,
otherwise the module name, and no qualifier when a single definition is
named. -/
def qualifierFields (protoName : String) (qualifiedName defName : Option String) :
    Option String :=
  match qualifiedName with
  | some q => some q
  | none =>
    match defName with
    | some _ => none
    | none => some protoName

/-- Modelled from the spec: addNamespacesToDef (in base, not among the given
sources) attaches namespace prefixes to a definition record, preserving its
kind, name and source identity. -/
def addNamespacesToDef (d : LookupDefinition) (namespaces : List String) :
    LookupDefinition :=
  { d with namespaces := namespaces ++ d.namespaces }

/-- Modelled from the spec: selfReferenceError (in importErrors, not among the
given sources): a module imports, exports or instances itself. -/
def selfReferenceError (decl : ImportedFrom) : QuintError :=
  { code := "SELF-REFERENCE"
    message := "A module cannot reference itself"
    reference := decl.declId }

/-- Modelled from the spec: moduleNotFoundError (in importErrors, not among the
given sources): the referenced module was never registered. -/
def moduleNotFoundError (decl : ImportedFrom) : QuintError :=
  { code := "MODULE-NOT-FOUND"
    message := "The referenced module was not found"
    reference := decl.declId }

/-- Modelled from the spec: nameNotFoundError (in importErrors, not among the
given sources): a single-name import or export targets an absent name. -/
def nameNotFoundError (decl : ImportedFrom) : QuintError :=
  { code := "NAME-NOT-FOUND"
    message := "The referenced name was not found"
    reference := decl.declId }

/-- Modelled from the spec: paramNotFoundError (in importErrors, not among the
given sources): an instance override targets a nonexistent parameter. -/
def paramNotFoundError (_decl : QuintInstance) (param : QuintLambdaParameter) :
    QuintError :=
  { code := "PARAM-NOT-FOUND"
    message := "Parameter " ++ param.name ++ " not found"
    reference := param.id }

/-- Modelled from the spec: paramIsNotAConstantError (in importErrors, not
among the given sources): an instance override targets a non-constant. -/
def paramIsNotAConstantError (_decl : QuintInstance) (param : QuintLambdaParameter) :
    QuintError :=
  { code := "PARAM-NOT-CONST"
    message := "Parameter " ++ param.name ++ " is not a constant"
    reference := param.id }

/-- Modelled from the spec (section 4.2): copyNames (in base, not among the
given sources).  Every entry (name, def) of the source table is re-keyed under
namespace::name when a namespace is given and under name unchanged otherwise;
with unhide set, an entry that is itself unqualified (empty namespaces) is
additionally bound under the bare name.  The copy is built as a Map, entry by
entry in table order. -/
def copyNamesGo (namespaceName : Option String) (unhide : Bool) :
    List (String × LookupDefinition) → DefinitionsByName → DefinitionsByName
  | [], acc => acc
  | (name, d) :: rest, acc =>
    let acc1 :=
      match namespaceName with
      | none => setEntry acc name d
      | some q =>
        let accQ := setEntry acc (q ++ "::" ++ name) d
        if unhide ∧ d.namespaces = [] then setEntry accQ name d else accQ
    copyNamesGo namespaceName unhide rest acc1

/-- Modelled from the spec (section 4.2): copyNames, see copyNamesGo. -/
def copyNames (table : DefinitionsByName) (namespaceName : Option String)
    (unhide : Bool) : DefinitionsByName :=
  copyNamesGo namespaceName unhide table []

/-- The visitor state of the NameCollector class.  The unused table field of
the TypeScript class (never read or written in this file of the source) is
omitted. -/
structure NameCollector where
  definitionsByName : DefinitionsByName := []
  definitionsByModule : DefinitionsByModule := []
  errors : List QuintError := []
  definitionDepth : Int := -1
  currentModuleName : String := ""
deriving DecidableEq, Repr

/-- The message built by recordConflict (the source wraps the interpolated
names in single quotes; the quotes are immaterial and omitted here). -/
def conflictMessage (identifier currentModuleName : String)
    (existingSource : Option Nat) : String :=
  match existingSource with
  | some _ =>
    "Conflicting definitions found for name " ++ identifier ++ " in module " ++
      currentModuleName
  | none =>
    "Built-in name " ++ identifier ++ " is redefined in module " ++
      currentModuleName

/-- The list of diagnostics recordConflict pushes: one referencing the
existing source when there is one (there is none for a built-in conflict), and
one referencing the new source; every diagnostic carries code QNT101. -/
def conflictErrors (identifier : String) (existingSource : Option Nat)
    (newSource : Nat) (currentModuleName : String) : List QuintError :=
  let message := conflictMessage identifier currentModuleName existingSource
  (match existingSource with
   | some e => [{ code := "QNT101", message := message, reference := e }]
   | none => []) ++
    [{ code := "QNT101", message := message, reference := newSource }]

/-- NameCollector.recordConflict. -/
def NameCollector.recordConflict (s : NameCollector) (identifier : String)
    (existingSource : Option Nat) (newSource : Nat) : NameCollector :=
  { s with
    errors :=
      s.errors ++ conflictErrors identifier existingSource newSource s.currentModuleName }

/-- The identifier collectDefinition uses:
(importedFrom as QuintImport)?.defName ?? def.name. -/
def identifierOf (d : LookupDefinition) (importedFrom : Option ImportedFrom) : String :=
  match importedFrom with
  | some f => (f.defNameOf).getD d.name
  | none => d.name

/-- The source identity collectDefinition reports:
importedFrom?.id ?? def.id. -/
def sourceOf (d : LookupDefinition) (importedFrom : Option ImportedFrom) : Nat :=
  match importedFrom with
  | some f => f.declId
  | none => d.id

/-- The namespaces method: for an instance, the compaction of the qualified
(or proto) name and the current module name; for an import or export, the
qualifier when it is a nonempty string. -/
def NameCollector.namespacesFor (s : NameCollector) : ImportedFrom → List String
  | .inst d => compact [d.qualifiedName.getD d.protoName, s.currentModuleName]
  | .imp d =>
    match qualifierFields d.protoName d.qualifiedName d.defName with
    | some ns => if ns = "" then [] else [ns]
    | none => []
  | .exp d =>
    match qualifierFields d.protoName d.qualifiedName d.defName with
    | some ns => if ns = "" then [] else [ns]
    | none => []

/-- NameCollector.collectDefinition: underscores are never collected; a
built-in identifier records a conflict without a prior source and is not
inserted; an identifier bound to a definition with a different source identity
records a conflict and is not overwritten; otherwise the definition is
inserted with the namespace prefixes implied by importedFrom. -/
def NameCollector.collectDefinition (s : NameCollector) (d : LookupDefinition)
    (importedFrom : Option ImportedFrom) : NameCollector :=
  let identifier := identifierOf d importedFrom
  let source := sourceOf d importedFrom
  if identifier = "_" then s
  else if identifier ∈ builtinNames then
    s.recordConflict identifier none source
  else
    let namespaces :=
      match importedFrom with
      | some f => s.namespacesFor f
      | none => []
    let newRecord : LookupDefinition :=
      { addNamespacesToDef d namespaces with importedFrom := importedFrom }
    let inserted : NameCollector :=
      { s with definitionsByName := setEntry s.definitionsByName identifier newRecord }
    match getEntry s.definitionsByName identifier with
    | some existing =>
      if existing.id ≠ d.id then
        s.recordConflict identifier (some existing.id) source
      else inserted
    | none => inserted

/-- The diagnostics the collectDefinitions map callback pushes, in input
order: for each new entry whose identifier is bound to a definition with a
different source identity, the two QNT101 conflict diagnostics.  Every
conflict is checked against the table as it was before the batch. -/
def conflictsFor (tbl : DefinitionsByName) (currentModuleName : String) :
    List (String × LookupDefinition) → List QuintError
  | [] => []
  | p :: rest =>
    (match getEntry tbl p.1 with
     | some existing =>
       if existing.id ≠ p.2.id then
         conflictErrors p.1 (some existing.id) p.2.id currentModuleName
       else []
     | none => []) ++ conflictsFor tbl currentModuleName rest

/-- NameCollector.collectDefinitions: records a conflict for every new entry
clashing with the pre-batch table, then rebuilds the table as
new Map([...this.definitionsByName.entries(), ...newEntries]) — so a new
entry overwrites an existing entry with the same identifier. -/
def NameCollector.collectDefinitions (s : NameCollector)
    (newDefs : DefinitionsByName) (importedFrom : Option ImportedFrom) :
    NameCollector :=
  let namespaces :=
    match importedFrom with
    | some f => s.namespacesFor f
    | none => []
  let newEntries : DefinitionsByName :=
    newDefs.map (fun p =>
      (p.1, { addNamespacesToDef p.2 namespaces with importedFrom := importedFrom }))
  { s with
    errors := s.errors ++ conflictsFor s.definitionsByName s.currentModuleName newDefs
    definitionsByName := setMany s.definitionsByName newEntries }

/-- NameCollector.deleteDefinition. -/
def NameCollector.deleteDefinition (s : NameCollector) (identifier : String) :
    NameCollector :=
  { s with definitionsByName := deleteEntry s.definitionsByName identifier }

/-- NameCollector.getDefinition. -/
def NameCollector.getDefinition (s : NameCollector) (identifier : String) :
    Option LookupDefinition :=
  getEntry s.definitionsByName identifier

/-- NameCollector.enterModule: reset the current module name and the current
table; if the module name is already registered, record a QNT102 module
redefinition error. -/
def NameCollector.enterModule (s : NameCollector) (m : QuintModule) : NameCollector :=
  let s1 := { s with currentModuleName := m.name, definitionsByName := [] }
  let redefErr : QuintError :=
    { code := "QNT102"
      message := "Module with name " ++ m.name ++ " was already defined"
      reference := m.id }
  if (getEntry s.definitionsByModule m.name).isSome then
    { s1 with errors := s1.errors ++ [redefErr] }
  else s1

/-- NameCollector.exitModule: publish the current table into the registry. -/
def NameCollector.exitModule (s : NameCollector) (m : QuintModule) : NameCollector :=
  { s with
    definitionsByModule := setEntry s.definitionsByModule m.name s.definitionsByName }

/-- The body of the forEach over decl.overrides in enterInstance: a missing
parameter or a non-constant parameter records an error and leaves the table
alone; a constant parameter has its entry re-pointed at the override
expression identity. -/
def applyOverride (decl : QuintInstance) (acc : DefinitionsByName × List QuintError)
    (override : QuintLambdaParameter × QuintEx) :
    DefinitionsByName × List QuintError :=
  match getEntry acc.1 override.1.name with
  | none => (acc.1, acc.2 ++ [paramNotFoundError decl override.1])
  | some constDef =>
    if constDef.kind ≠ DefKind.const then
      (acc.1, acc.2 ++ [paramIsNotAConstantError decl override.1])
    else
      (setEntry acc.1 override.1.name { constDef with id := override.2.id }, acc.2)

/-- NameCollector.enterInstance.  In the source the qualified table is
registered before the overrides mutate it, but the registered object is the
same Map the overrides mutate, so the registry ends up holding the overridden
table; the pure embedding applies the overrides first. -/
def NameCollector.enterInstance (s : NameCollector) (decl : QuintInstance) :
    NameCollector :=
  if decl.protoName = s.currentModuleName then
    { s with errors := s.errors ++ [selfReferenceError (.inst decl)] }
  else
    match getEntry s.definitionsByModule decl.protoName with
    | none => { s with errors := s.errors ++ [moduleNotFoundError (.inst decl)] }
    | some moduleTable =>
      let applied := decl.overrides.foldl (applyOverride decl) (moduleTable, [])
      let s1 : NameCollector :=
        { s with
          errors := s.errors ++ applied.2
          definitionsByModule :=
            match decl.qualifiedName with
            | some q => setEntry s.definitionsByModule q applied.1
            | none => s.definitionsByModule }
      let newDefs := copyNames applied.1 decl.qualifiedName true
      s1.collectDefinitions newDefs (some (.inst decl))

/-- NameCollector.enterImport. -/
def NameCollector.enterImport (s : NameCollector) (decl : QuintImport) :
    NameCollector :=
  if decl.protoName = s.currentModuleName then
    { s with errors := s.errors ++ [selfReferenceError (.imp decl)] }
  else
    match getEntry s.definitionsByModule decl.protoName with
    | none => { s with errors := s.errors ++ [moduleNotFoundError (.imp decl)] }
    | some moduleTable =>
      let s1 : NameCollector :=
        match decl.qualifiedName with
        | some q =>
          { s with definitionsByModule := setEntry s.definitionsByModule q moduleTable }
        | none => s
      let importableDefinitions :=
        copyNames moduleTable
          (qualifierFields decl.protoName decl.qualifiedName decl.defName) true
      match decl.defName with
      | none => s1.collectDefinitions importableDefinitions (some (.imp decl))
      | some dn =>
        if dn = "*" ∨ dn = "" then
          s1.collectDefinitions importableDefinitions (some (.imp decl))
        else
          match getEntry importableDefinitions dn with
          | none => { s1 with errors := s1.errors ++ [nameNotFoundError (.imp decl)] }
          | some newDef => s1.collectDefinition newDef (some (.imp decl))

/-- NameCollector.enterExport: the same shape as enterImport, but the names
are copied without unhiding and no qualified registry entry is created. -/
def NameCollector.enterExport (s : NameCollector) (decl : QuintExport) :
    NameCollector :=
  if decl.protoName = s.currentModuleName then
    { s with errors := s.errors ++ [selfReferenceError (.exp decl)] }
  else
    match getEntry s.definitionsByModule decl.protoName with
    | none => { s with errors := s.errors ++ [moduleNotFoundError (.exp decl)] }
    | some moduleTable =>
      let exportableDefinitions :=
        copyNames moduleTable
          (qualifierFields decl.protoName decl.qualifiedName decl.defName) false
      match decl.defName with
      | none => s.collectDefinitions exportableDefinitions (some (.exp decl))
      | some dn =>
        if dn = "*" ∨ dn = "" then
          s.collectDefinitions exportableDefinitions (some (.exp decl))
        else
          match getEntry exportableDefinitions dn with
          | none => { s with errors := s.errors ++ [nameNotFoundError (.exp decl)] }
          | some newDef => s.collectDefinition newDef (some (.exp decl))

/-! Concrete sample values used by the witnesses and counterexamples below. -/

/-- A sample top-level operator definition. -/
def sampleDef (n : String) (i : Nat) : LookupDefinition :=
  { kind := DefKind.opdef, name := n, id := i }

/-- A sample constant definition. -/
def sampleConst (n : String) (i : Nat) : LookupDefinition :=
  { kind := DefKind.const, name := n, id := i }

/-- A state inside module M whose table binds x to a definition with source
identity 1. -/
def sampleState : NameCollector :=
  { definitionsByName := [("x", sampleDef "x" 1)], currentModuleName := "M" }

/-- A state whose table binds the built-in name assert (reachable through the
batch path collectDefinitions, which does not filter built-ins). -/
def builtinBoundState : NameCollector :=
  { definitionsByName := [("assert", sampleDef "assert" 7)], currentModuleName := "M" }

/-- A state inside module Client whose registry holds module M with a single
constant c of source identity 10. -/
def instRegistryState : NameCollector :=
  { definitionsByModule := [("M", [("c", sampleConst "c" 10)])]
    currentModuleName := "Client" }

/-- instance M as I(c = e77): overrides constant c with an expression of
source identity 77. -/
def sampleInstance : QuintInstance :=
  { id := 99, protoName := "M", qualifiedName := some "I"
    overrides := [({ id := 50, name := "c" }, { id := 77 })] }

/-- A fresh state inside a module named M. -/
def stateM : NameCollector := { currentModuleName := "M" }

/-- A fresh state inside a module named A. -/
def stateA : NameCollector := { currentModuleName := "A" }

/-- import A, declared inside module A itself. -/
def selfImportDecl : QuintImport := { id := 21, protoName := "A" }

/-- export A, declared inside module A itself. -/
def selfExportDecl : QuintExport := { id := 22, protoName := "A" }

/-- instance of A, declared inside module A itself. -/
def selfInstanceDecl : QuintInstance := { id := 23, protoName := "A" }

/-- An import of a module that is not in the registry. -/
def missingImportDecl : QuintImport := { id := 31, protoName := "Ghost" }

/-- An export of a module that is not in the registry. -/
def missingExportDecl : QuintExport := { id := 32, protoName := "Ghost" }

/-- A two-definition batch. -/
def batch1 : DefinitionsByName := [("a", sampleDef "a" 3), ("b", sampleDef "b" 4)]

/-- The same batch in the opposite order. -/
def batch2 : DefinitionsByName := [("b", sampleDef "b" 4), ("a", sampleDef "a" 3)]

/-- The diagnostics produced by shadowing the built-in name assert in a fresh
module M. -/
def builtinShadowErrors : List QuintError :=
  (stateM.collectDefinition (sampleDef "assert" 5) none).errors

/-- The diagnostics produced by defining x twice (identities 1 and 2) in a
fresh module M. -/
def nameConflictErrors : List QuintError :=
  ((stateM.collectDefinition (sampleDef "x" 1) none).collectDefinition
    (sampleDef "x" 2) none).errors

/-- The diagnostics produced by entering a second module named M. -/
def moduleRedefErrors : List QuintError :=
  (((({} : NameCollector).enterModule { id := 1, name := "M" }).exitModule
      { id := 1, name := "M" }).enterModule { id := 2, name := "M" }).errors

/-- The record that the insert paths of collectDefinition and
collectDefinitions store for a definition: the namespace prefixes implied by
importedFrom are attached and the provenance is recorded. -/
def collectedEntry (s : NameCollector) (imp : Option ImportedFrom)
    (d : LookupDefinition) : LookupDefinition :=
  { addNamespacesToDef d
      (match imp with
       | some f => s.namespacesFor f
       | none => []) with
    importedFrom := imp }

end Quint

namespace Quint

/-! General lemmas about the Map embedding. -/

theorem getEntry_setEntry_self {α : Type} :
    ∀ (t : List (String × α)) (k : String) (v : α),
    getEntry (setEntry t k v) k = some v
  | [], k, v => by simp [setEntry, getEntry]
  | (a, b) :: rest, k, v => by
    by_cases h : a = k
    · simp [setEntry, h, getEntry]
    · simp [setEntry, h, getEntry, getEntry_setEntry_self rest k v]

theorem getEntry_setEntry_ne {α : Type} :
    ∀ (t : List (String × α)) (k key : String) (v : α), k ≠ key →
    getEntry (setEntry t k v) key = getEntry t key
  | [], k, key, v, h => by simp [setEntry, getEntry, h]
  | (a, b) :: rest, k, key, v, h => by
    by_cases hak : a = k
    · subst hak
      simp [setEntry, getEntry, h]
    · simp only [setEntry, if_neg hak]
      by_cases hk : a = key
      · simp [getEntry, hk]
      · simp [getEntry, hk, getEntry_setEntry_ne rest k key v h]

theorem getEntry_deleteEntry_self {α : Type} :
    ∀ (t : List (String × α)) (k : String),
    getEntry (deleteEntry t k) k = none
  | [], _ => rfl
  | (a, b) :: rest, k => by
    by_cases h : a = k
    · simp [deleteEntry, h, getEntry_deleteEntry_self rest k]
    · simp [deleteEntry, h, getEntry, getEntry_deleteEntry_self rest k]

theorem getEntry_deleteEntry_ne {α : Type} :
    ∀ (t : List (String × α)) (k key : String), key ≠ k →
    getEntry (deleteEntry t k) key = getEntry t key
  | [], _, _, _ => rfl
  | (a, b) :: rest, k, key, h => by
    by_cases hak : a = k
    · subst hak
      simp [deleteEntry, getEntry, Ne.symm h, getEntry_deleteEntry_ne rest a key h]
    · by_cases hk : a = key
      · simp [deleteEntry, hak, getEntry, hk, h]
      · simp [deleteEntry, hak, getEntry, hk, getEntry_deleteEntry_ne rest k key h]

theorem deleteEntry_eq_self_of_getEntry_none {α : Type} :
    ∀ (t : List (String × α)) (k : String), getEntry t k = none →
    deleteEntry t k = t
  | [], _, _ => rfl
  | (a, b) :: rest, k, h => by
    by_cases hak : a = k
    · simp [getEntry, hak] at h
    · simp only [getEntry, if_neg hak] at h
      simp [deleteEntry, hak, deleteEntry_eq_self_of_getEntry_none rest k h]

theorem setEntry_idem {α : Type} :
    ∀ (t : List (String × α)) (k : String) (v : α),
    setEntry (setEntry t k v) k v = setEntry t k v
  | [], k, v => by simp [setEntry]
  | (a, b) :: rest, k, v => by
    by_cases hak : a = k
    · simp [setEntry, hak]
    · simp [setEntry, hak, setEntry_idem rest k v]

theorem getEntry_eq_none_iff {α : Type} :
    ∀ (t : List (String × α)) (k : String),
    getEntry t k = none ↔ k ∉ t.map Prod.fst
  | [], k => by simp [getEntry]
  | (a, b) :: rest, k => by
    by_cases hak : a = k
    · simp [getEntry, hak]
    · simp [getEntry, hak, getEntry_eq_none_iff rest k, Ne.symm hak]

theorem mem_of_getEntry_eq_some {α : Type} :
    ∀ {t : List (String × α)} {k : String} {v : α},
    getEntry t k = some v → (k, v) ∈ t
  | [], _, _, h => by simp [getEntry] at h
  | (a, b) :: rest, k, v, h => by
    by_cases hak : a = k
    · subst hak
      simp [getEntry] at h
      subst h
      exact List.mem_cons_self _ _
    · simp only [getEntry, if_neg hak] at h
      exact List.mem_cons_of_mem _ (mem_of_getEntry_eq_some h)

theorem getEntry_eq_some_of_mem {α : Type} :
    ∀ {t : List (String × α)} {k : String} {v : α},
    (t.map Prod.fst).Nodup → (k, v) ∈ t → getEntry t k = some v
  | [], _, _, _, h => by simp at h
  | (a, b) :: rest, k, v, nd, h => by
    simp only [List.map_cons, List.nodup_cons] at nd
    rcases List.mem_cons.mp h with heq | hmem
    · injection heq with h1 h2
      subst h1; subst h2
      simp [getEntry]
    · have hak : a ≠ k := by
        intro e
        subst e
        exact nd.1 (List.mem_map_of_mem Prod.fst hmem)
      simp [getEntry, hak, getEntry_eq_some_of_mem nd.2 hmem]

theorem mem_keys_setEntry {α : Type} :
    ∀ (t : List (String × α)) (k key : String) (v : α),
    key ∈ (setEntry t k v).map Prod.fst → key = k ∨ key ∈ t.map Prod.fst
  | [], k, key, v, h => by
    simp [setEntry] at h
    exact Or.inl h
  | (a, b) :: rest, k, key, v, h => by
    by_cases hak : a = k
    · simp only [setEntry, if_pos hak, List.map_cons, List.mem_cons] at h
      rcases h with h | h
      · exact Or.inl h
      · exact Or.inr (by simp [h])
    · simp only [setEntry, if_neg hak, List.map_cons, List.mem_cons] at h
      rcases h with h | h
      · exact Or.inr (by simp [h])
      · rcases mem_keys_setEntry rest k key v h with h | h
        · exact Or.inl h
        · exact Or.inr (by simp [h])

theorem nodupKeys_setEntry {α : Type} :
    ∀ (t : List (String × α)) (k : String) (v : α),
    (t.map Prod.fst).Nodup → ((setEntry t k v).map Prod.fst).Nodup
  | [], k, v, _ => by simp [setEntry]
  | (a, b) :: rest, k, v, nd => by
    simp only [List.map_cons, List.nodup_cons] at nd
    by_cases hak : a = k
    · subst hak
      have e : setEntry ((a, b) :: rest) a v = (a, v) :: rest := by simp [setEntry]
      rw [e]
      simp only [List.map_cons, List.nodup_cons]
      exact nd
    · simp only [setEntry, if_neg hak, List.map_cons, List.nodup_cons]
      refine ⟨?_, nodupKeys_setEntry rest k v nd.2⟩
      intro hmem
      rcases mem_keys_setEntry rest k a v hmem with h | h
      · exact hak h
      · exact nd.1 h

theorem getEntry_setMany {α : Type} :
    ∀ (l t : List (String × α)) (k : String), (l.map Prod.fst).Nodup →
    getEntry (setMany t l) k =
      (match getEntry l k with
       | some v => some v
       | none => getEntry t k)
  | [], t, k, _ => by simp [setMany, getEntry]
  | (a, b) :: rest, t, k, nd => by
    simp only [List.map_cons, List.nodup_cons] at nd
    show getEntry (setMany (setEntry t a b) rest) k = _
    rw [getEntry_setMany rest (setEntry t a b) k nd.2]
    by_cases hak : a = k
    · subst hak
      have hnone : getEntry rest a = none := (getEntry_eq_none_iff rest a).mpr nd.1
      simp [getEntry, hnone, getEntry_setEntry_self]
    · simp [getEntry, hak, getEntry_setEntry_ne t a k b hak]

theorem getEntry_map_vals {α β : Type} (f : α → β) :
    ∀ (t : List (String × α)) (k : String),
    getEntry (t.map (fun p => (p.1, f p.2))) k = (getEntry t k).map f
  | [], _ => rfl
  | (a, b) :: rest, k => by
    by_cases hak : a = k <;> simp [getEntry, hak, getEntry_map_vals f rest k]

theorem keys_map_vals {α β : Type} (f : α → β) (t : List (String × α)) :
    (t.map (fun p => (p.1, f p.2))).map Prod.fst = t.map Prod.fst := by
  simp [List.map_map]

theorem getEntry_perm {α : Type} {l1 l2 : List (String × α)} (h : l1.Perm l2)
    (nd : (l1.map Prod.fst).Nodup) (k : String) :
    getEntry l1 k = getEntry l2 k := by
  have nd2 : (l2.map Prod.fst).Nodup := ((h.map Prod.fst).nodup_iff).mp nd
  cases hg : getEntry l1 k with
  | some v =>
    exact (getEntry_eq_some_of_mem nd2 (h.mem_iff.mp (mem_of_getEntry_eq_some hg))).symm
  | none =>
    have h1 : k ∉ l1.map Prod.fst := (getEntry_eq_none_iff _ _).mp hg
    have h2 : k ∉ l2.map Prod.fst := fun hm => h1 (((h.map Prod.fst).mem_iff).mpr hm)
    exact ((getEntry_eq_none_iff _ _).mpr h2).symm

theorem conflictsFor_perm (tbl : DefinitionsByName) (m : String)
    {l1 l2 : List (String × LookupDefinition)} (h : l1.Perm l2) :
    (conflictsFor tbl m l1).Perm (conflictsFor tbl m l2) := by
  induction h with
  | nil => exact List.Perm.refl _
  | cons x h ih =>
    simpa [conflictsFor] using ih.append_left _
  | swap x y t =>
    simp only [conflictsFor, ← List.append_assoc]
    exact (List.perm_append_comm).append_right _
  | trans h1 h2 ih1 ih2 => exact ih1.trans ih2

theorem string_append_cancel_left {a b c : String} (h : a ++ b = a ++ c) : b = c := by
  cases a; cases b; cases c
  simp_all [String.ext_iff]

theorem qualified_ne (q c : String) : q ++ "::" ++ c ≠ c := by
  intro h
  have hlen : (q ++ "::" ++ c).length = c.length := by rw [h]
  have h2 : ("::" : String).length = 2 := rfl
  simp [String.length_append, h2] at hlen

end Quint

namespace Quint

theorem copyNamesGo_frame (q : String) (u : Bool) :
    ∀ (l : List (String × LookupDefinition)) (acc : DefinitionsByName) (K : String),
    (∀ p ∈ l, q ++ "::" ++ p.1 ≠ K) → K ∉ l.map Prod.fst →
    getEntry (copyNamesGo (some q) u l acc) K = getEntry acc K
  | [], _, _, _, _ => rfl
  | (name, d) :: rest, acc, K, hq, hb => by
    have hq1 : q ++ "::" ++ name ≠ K := hq (name, d) (List.mem_cons_self _ _)
    have hb1 : name ≠ K := fun e => hb (by simp [e])
    have hqr : ∀ p ∈ rest, q ++ "::" ++ p.1 ≠ K :=
      fun p hp => hq p (List.mem_cons_of_mem _ hp)
    have hbr : K ∉ rest.map Prod.fst := fun hm => hb (by simp [hm])
    simp only [copyNamesGo]
    rw [copyNamesGo_frame q u rest _ K hqr hbr]
    by_cases hu : u ∧ d.namespaces = []
    · simp [hu, getEntry_setEntry_ne _ _ _ _ hb1, getEntry_setEntry_ne _ _ _ _ hq1]
    · simp [hu, getEntry_setEntry_ne _ _ _ _ hq1]

theorem copyNamesGo_qualified (q : String) (u : Bool) :
    ∀ (l : List (String × LookupDefinition)) (acc : DefinitionsByName)
      (c : String) (d : LookupDefinition),
    (l.map Prod.fst).Nodup → (c, d) ∈ l → (q ++ "::" ++ c) ∉ l.map Prod.fst →
    getEntry (copyNamesGo (some q) u l acc) (q ++ "::" ++ c) = some d
  | [], _, _, _, _, hmem, _ => by simp at hmem
  | (name, dd) :: rest, acc, c, d, nd, hmem, hK => by
    simp only [List.map_cons, List.nodup_cons] at nd
    rcases List.mem_cons.mp hmem with heq | hmem2
    · injection heq with h1 h2
      subst h1
      subst h2
      simp only [copyNamesGo]
      have hqr : ∀ p ∈ rest, q ++ "::" ++ p.1 ≠ q ++ "::" ++ c := by
        intro p hp e
        apply nd.1
        rw [← string_append_cancel_left e]
        exact List.mem_map_of_mem Prod.fst hp
      have hbr : (q ++ "::" ++ c) ∉ rest.map Prod.fst := fun hm => hK (by simp [hm])
      rw [copyNamesGo_frame q u rest _ _ hqr hbr]
      have hcne : c ≠ q ++ "::" ++ c := Ne.symm (qualified_ne q c)
      by_cases hu : u ∧ d.namespaces = []
      · simp [hu, getEntry_setEntry_ne _ _ _ _ hcne, getEntry_setEntry_self]
      · simp [hu, getEntry_setEntry_self]
    · simp only [copyNamesGo]
      exact copyNamesGo_qualified q u rest _ c d nd.2 hmem2 (fun hm => hK (by simp [hm]))

theorem nodupKeys_copyNamesGo (ns : Option String) (u : Bool) :
    ∀ (l : List (String × LookupDefinition)) (acc : DefinitionsByName),
    (acc.map Prod.fst).Nodup → ((copyNamesGo ns u l acc).map Prod.fst).Nodup
  | [], _, nd => nd
  | (name, d) :: rest, acc, nd => by
    simp only [copyNamesGo]
    apply nodupKeys_copyNamesGo ns u rest
    cases ns with
    | none => exact nodupKeys_setEntry _ _ _ nd
    | some q =>
      by_cases hu : u ∧ d.namespaces = []
      · simp only [if_pos hu]
        exact nodupKeys_setEntry _ _ _ (nodupKeys_setEntry _ _ _ nd)
      · simp only [if_neg hu]
        exact nodupKeys_setEntry _ _ _ nd

theorem nodupKeys_copyNames (t : DefinitionsByName) (ns : Option String) (u : Bool) :
    ((copyNames t ns u).map Prod.fst).Nodup :=
  nodupKeys_copyNamesGo ns u t [] (by simp)

end Quint

namespace Quint

/-! Claim theorems. -/

/-- Claim C9 (confirmed): the identifier underscore is never collected: for
every state and every definition whose binding identifier is underscore,
collectDefinition leaves the state (table, errors, registry) entirely
unchanged and records no diagnostic, regardless of what underscore is already
bound to or whether underscore is a built-in name. -/
theorem c9_theorem (s : NameCollector) (d : LookupDefinition)
    (imp : Option ImportedFrom) (h : identifierOf d imp = "_") :
    s.collectDefinition d imp = s := by
  simp [NameCollector.collectDefinition, h]

/-- Witness for C9: collecting a definition named underscore into a state that
already binds x is an exact no-op. -/
theorem c9_witness :
    identifierOf (sampleDef "_" 4) none = "_" ∧
      sampleState.collectDefinition (sampleDef "_" 4) none = sampleState :=
  ⟨rfl, c9_theorem sampleState (sampleDef "_" 4) none rfl⟩

/-- Claim C10 (confirmed): deleteDefinition x affects only the binding of x:
afterwards getDefinition x is none, every other identifier maps to the same
definition as before, the error list and the registry are unchanged, and
deleting a never-collected identifier is a no-op. -/
theorem c10_theorem (s : NameCollector) (x : String) :
    (s.deleteDefinition x).getDefinition x = none ∧
    (∀ y, y ≠ x → (s.deleteDefinition x).getDefinition y = s.getDefinition y) ∧
    (s.deleteDefinition x).errors = s.errors ∧
    (s.deleteDefinition x).definitionsByModule = s.definitionsByModule ∧
    (s.getDefinition x = none → s.deleteDefinition x = s) := by
  refine ⟨?_, ?_, rfl, rfl, ?_⟩
  · exact getEntry_deleteEntry_self _ _
  · intro y hy
    exact getEntry_deleteEntry_ne _ _ _ hy
  · intro h
    show { s with definitionsByName := deleteEntry s.definitionsByName x } = s
    rw [deleteEntry_eq_self_of_getEntry_none _ _ h]

/-- Witness for C10 at concrete inputs: deleting x removes x, leaves y alone,
and deleting a never-collected identifier is a no-op. -/
theorem c10_witness :
    (sampleState.deleteDefinition "x").getDefinition "x" = none ∧
    ("y" : String) ≠ "x" ∧
    (sampleState.deleteDefinition "x").getDefinition "y" = sampleState.getDefinition "y" ∧
    sampleState.getDefinition "nope" = none ∧
    sampleState.deleteDefinition "nope" = sampleState :=
  ⟨(c10_theorem sampleState "x").1, by decide,
   (c10_theorem sampleState "x").2.1 "y" (by decide),
   by decide,
   (c10_theorem sampleState "nope").2.2.2.2 (by decide)⟩

/-- Claim C5 (confirmed): an import, export or instance declaration inside
module A whose referenced module name equals A records exactly one
SELF-REFERENCE error and changes nothing else in the state; in particular the
in-progress definition table is untouched. -/
theorem c5_theorem (s : NameCollector) (di : QuintImport) (de : QuintExport)
    (dn : QuintInstance)
    (hi : di.protoName = s.currentModuleName)
    (he : de.protoName = s.currentModuleName)
    (hn : dn.protoName = s.currentModuleName) :
    s.enterImport di = { s with errors := s.errors ++ [selfReferenceError (.imp di)] } ∧
    s.enterExport de = { s with errors := s.errors ++ [selfReferenceError (.exp de)] } ∧
    s.enterInstance dn = { s with errors := s.errors ++ [selfReferenceError (.inst dn)] } := by
  refine ⟨?_, ?_, ?_⟩
  · simp [NameCollector.enterImport, hi]
  · simp [NameCollector.enterExport, he]
  · simp [NameCollector.enterInstance, hn]

/-- Witness for C5: self import, export and instance of module A inside A. -/
theorem c5_witness :
    stateA.enterImport selfImportDecl =
        { stateA with errors := stateA.errors ++ [selfReferenceError (.imp selfImportDecl)] } ∧
      stateA.enterExport selfExportDecl =
        { stateA with errors := stateA.errors ++ [selfReferenceError (.exp selfExportDecl)] } ∧
      stateA.enterInstance selfInstanceDecl =
        { stateA with errors := stateA.errors ++ [selfReferenceError (.inst selfInstanceDecl)] } :=
  c5_theorem stateA selfImportDecl selfExportDecl selfInstanceDecl rfl rfl rfl

/-- Claim C8 (confirmed): an import or export declaration referencing a module
absent from the registry records a MODULE-NOT-FOUND error and has no other
effect: the current table and the registry are unchanged and the handler
returns normally. -/
theorem c8_theorem (s : NameCollector) (di : QuintImport) (de : QuintExport)
    (hi1 : di.protoName ≠ s.currentModuleName)
    (hi2 : getEntry s.definitionsByModule di.protoName = none)
    (he1 : de.protoName ≠ s.currentModuleName)
    (he2 : getEntry s.definitionsByModule de.protoName = none) :
    s.enterImport di = { s with errors := s.errors ++ [moduleNotFoundError (.imp di)] } ∧
    s.enterExport de = { s with errors := s.errors ++ [moduleNotFoundError (.exp de)] } := by
  constructor
  · simp [NameCollector.enterImport, hi1, hi2]
  · simp [NameCollector.enterExport, he1, he2]

/-- Witness for C8: importing and exporting an unregistered module Ghost from
module A. -/
theorem c8_witness :
    stateA.enterImport missingImportDecl =
        { stateA with errors := stateA.errors ++ [moduleNotFoundError (.imp missingImportDecl)] } ∧
      stateA.enterExport missingExportDecl =
        { stateA with errors := stateA.errors ++ [moduleNotFoundError (.exp missingExportDecl)] } :=
  c8_theorem stateA missingImportDecl missingExportDecl (by decide) rfl (by decide) rfl

/-- Claim C7 (confirmed): collecting a definition whose identifier is a
reserved built-in name records exactly one built-in redefinition diagnostic,
referencing only the new source identity, and does not insert: the table is
unchanged, so a table with no user entry for that identifier still has none
afterwards. -/
theorem c7_theorem (s : NameCollector) (d : LookupDefinition)
    (imp : Option ImportedFrom) (hb : identifierOf d imp ∈ builtinNames) :
    (s.collectDefinition d imp).definitionsByName = s.definitionsByName ∧
    (s.collectDefinition d imp).errors =
      s.errors ++
        conflictErrors (identifierOf d imp) none (sourceOf d imp) s.currentModuleName ∧
    (conflictErrors (identifierOf d imp) none (sourceOf d imp) s.currentModuleName).map
        QuintError.reference = [sourceOf d imp] ∧
    (getEntry s.definitionsByName (identifierOf d imp) = none →
      (s.collectDefinition d imp).getDefinition (identifierOf d imp) = none) := by
  have hu : identifierOf d imp ≠ "_" := by
    intro e
    rw [e] at hb
    exact absurd hb (by decide)
  refine ⟨?_, ?_, ?_, ?_⟩
  · simp [NameCollector.collectDefinition, hu, hb, NameCollector.recordConflict]
  · simp [NameCollector.collectDefinition, hu, hb, NameCollector.recordConflict]
  · simp [conflictErrors, conflictMessage]
  · intro h
    simp [NameCollector.getDefinition, NameCollector.collectDefinition, hu, hb,
      NameCollector.recordConflict, h]

/-- Witness for C7: collecting a definition named assert in a fresh module
M leaves the table empty and emits the single built-in diagnostic. -/
theorem c7_witness :
    identifierOf (sampleDef "assert" 5) none ∈ builtinNames ∧
      (stateM.collectDefinition (sampleDef "assert" 5) none).definitionsByName =
        stateM.definitionsByName ∧
      (conflictErrors (identifierOf (sampleDef "assert" 5) none) none
          (sourceOf (sampleDef "assert" 5) none) stateM.currentModuleName).map
        QuintError.reference = [sourceOf (sampleDef "assert" 5) none] :=
  ⟨by decide, (c7_theorem stateM (sampleDef "assert" 5) none (by decide)).1,
   (c7_theorem stateM (sampleDef "assert" 5) none (by decide)).2.2.1⟩

/-- Claim C3, counterexample: the built-in shadow diagnostic and the name
conflict diagnostic carry the same code QNT101, so the three categories do not
carry pairwise distinct codes as the claim states; only the module
redefinition code QNT102 is distinct. -/
theorem c3_counterexample :
    builtinShadowErrors.map QuintError.code = ["QNT101"] ∧
      nameConflictErrors.map QuintError.code = ["QNT101", "QNT101"] ∧
      moduleRedefErrors.map QuintError.code = ["QNT102"] := by
  refine ⟨?_, ?_, ?_⟩ <;> decide

/-- Claim C3 (amended): every diagnostic emitted by recordConflict — both the
name conflict and the built-in shadow category — carries code QNT101, while a
module redefinition diagnostic carries the distinct code QNT102; the two
recordConflict categories share their code and are distinguished only by
message. -/
theorem c3_theorem (s : NameCollector) (identifier : String)
    (exSrc : Option Nat) (newSrc : Nat) (m : QuintModule) :
    (((s.recordConflict identifier exSrc newSrc).errors.drop s.errors.length).all
        (fun e => e.code == "QNT101")) = true ∧
    (((s.enterModule m).errors.drop s.errors.length).all
        (fun e => e.code == "QNT102")) = true ∧
    ("QNT101" : String) ≠ "QNT102" := by
  refine ⟨?_, ?_, by decide⟩
  · show ((s.errors ++ conflictErrors identifier exSrc newSrc s.currentModuleName).drop
        s.errors.length).all (fun e => e.code == "QNT101") = true
    rw [List.drop_left]
    cases exSrc <;> simp [conflictErrors, conflictMessage]
  · by_cases h : (getEntry s.definitionsByModule m.name).isSome
    · show (((if (getEntry s.definitionsByModule m.name).isSome then _ else _) :
        NameCollector).errors.drop s.errors.length).all _ = true
      rw [if_pos h]
      rw [List.drop_left]
      simp
    · show (((if (getEntry s.definitionsByModule m.name).isSome then _ else _) :
        NameCollector).errors.drop s.errors.length).all _ = true
      rw [if_neg h]
      show ((s.errors.drop s.errors.length).all _) = true
      rw [List.drop_length]
      rfl

end Quint

namespace Quint

/-- The table produced by collectDefinitions, pointwise: an identifier bound
in the batch maps to its collected record (the batch overwrites), and any
other identifier keeps its previous binding. -/
theorem collectDefinitions_getEntry (s : NameCollector) (imp : Option ImportedFrom)
    (l : DefinitionsByName) (hnd : (l.map Prod.fst).Nodup) (k : String) :
    getEntry (s.collectDefinitions l imp).definitionsByName k =
      (match getEntry l k with
       | some v => some (collectedEntry s imp v)
       | none => getEntry s.definitionsByName k) := by
  show getEntry (setMany s.definitionsByName
      (l.map (fun p => (p.1, collectedEntry s imp p.2)))) k = _
  rw [getEntry_setMany _ _ _ (by rw [keys_map_vals]; exact hnd)]
  rw [getEntry_map_vals (collectedEntry s imp) l k]
  cases getEntry l k <;> rfl

/-- Claim C1, counterexample: collecting through the batch path
collectDefinitions a definition for x with a new source identity 2, over a
table binding x with identity 1, does not leave the existing entry in place:
the subsequent get returns the definition with identity 2, not the first one
encountered, contradicting the claim for the batch operation. -/
theorem c1_counterexample :
    ((sampleState.collectDefinitions [("x", sampleDef "x" 2)] none).getDefinition "x").map
        LookupDefinition.id = some 2 ∧
      ((sampleState.collectDefinitions [("x", sampleDef "x" 2)] none).getDefinition "x").map
        LookupDefinition.id ≠ some 1 := by
  refine ⟨?_, ?_⟩ <;> decide

/-- Claim C1 (amended): over a table binding N to a user definition with
identity i1, collecting a definition for N with a different identity i2 via
collectDefinition leaves the whole table unchanged (first writer wins) and
appends exactly two diagnostics, referencing i1 and i2; via the batch
collectDefinitions the same two diagnostics are appended but the new
definition overwrites the existing entry, so get then returns identity i2.
Neither path aborts processing. -/
theorem c1_theorem (s : NameCollector) (N : String) (dOld dNew : LookupDefinition)
    (i1 i2 : Nat)
    (hbound : getEntry s.definitionsByName N = some dOld)
    (h1 : dOld.id = i1) (h2 : dNew.id = i2) (hname : dNew.name = N)
    (hne : i2 ≠ i1) (hu : N ≠ "_") (hb : N ∉ builtinNames) :
    (s.collectDefinition dNew none).definitionsByName = s.definitionsByName ∧
    (s.collectDefinition dNew none).errors =
      s.errors ++ conflictErrors N (some i1) i2 s.currentModuleName ∧
    (conflictErrors N (some i1) i2 s.currentModuleName).map QuintError.reference =
      [i1, i2] ∧
    ((s.collectDefinitions [(N, dNew)] none).getDefinition N).map LookupDefinition.id =
      some i2 ∧
    (s.collectDefinitions [(N, dNew)] none).errors =
      s.errors ++ conflictErrors N (some i1) i2 s.currentModuleName := by
  subst h1
  subst h2
  subst hname
  have hne2 : dOld.id ≠ dNew.id := Ne.symm hne
  refine ⟨?_, ?_, ?_, ?_, ?_⟩
  · simp [NameCollector.collectDefinition, identifierOf, sourceOf, hu, hb, hbound, hne2,
      NameCollector.recordConflict]
  · simp [NameCollector.collectDefinition, identifierOf, sourceOf, hu, hb, hbound, hne2,
      NameCollector.recordConflict]
  · simp [conflictErrors, conflictMessage]
  · show (getEntry (setMany s.definitionsByName _) dNew.name).map _ = _
    simp [setMany, getEntry_setEntry_self, addNamespacesToDef]
  · show s.errors ++ conflictsFor s.definitionsByName s.currentModuleName
        [(dNew.name, dNew)] = _
    simp [conflictsFor, hbound, hne2]

/-- Witness for C1 at concrete inputs: x bound with identity 1 in module M, a
new definition for x with identity 2. -/
theorem c1_witness :
    getEntry sampleState.definitionsByName "x" = some (sampleDef "x" 1) ∧
      (sampleState.collectDefinition (sampleDef "x" 2) none).definitionsByName =
        sampleState.definitionsByName ∧
      (conflictErrors "x" (some 1) 2 sampleState.currentModuleName).map
        QuintError.reference = [1, 2] ∧
      ((sampleState.collectDefinitions [("x", sampleDef "x" 2)] none).getDefinition "x").map
        LookupDefinition.id = some 2 :=
  ⟨rfl,
   (c1_theorem sampleState "x" (sampleDef "x" 1) (sampleDef "x" 2) 1 2 rfl rfl rfl rfl
      (by decide) (by decide) (by decide)).1,
   (c1_theorem sampleState "x" (sampleDef "x" 1) (sampleDef "x" 2) 1 2 rfl rfl rfl rfl
      (by decide) (by decide) (by decide)).2.2.1,
   (c1_theorem sampleState "x" (sampleDef "x" 1) (sampleDef "x" 2) 1 2 rfl rfl rfl rfl
      (by decide) (by decide) (by decide)).2.2.2.1⟩

/-- Claim C2, counterexample: the final table content of the batch operation
collectDefinitions is not the result of applying the per-entry collection
policy: over a table binding x with identity 1, the batch holding x with
identity 2 yields a table whose entry for x differs from the one produced by
collectDefinition on the same definition (the batch overwrites, the per-entry
policy retains). -/
theorem c2_counterexample :
    (sampleState.collectDefinitions [("x", sampleDef "x" 2)] none).getDefinition "x" ≠
      (sampleState.collectDefinition (sampleDef "x" 2) none).getDefinition "x" := by
  decide

/-- Claim C2 (amended): the final table content of collectDefinitions does not
depend on the order of the batch entries (batch identifiers are distinct,
being Map keys): permuting the batch yields pointwise the same table, the
emitted diagnostics up to permutation, and the diagnostic list itself follows
input order, one conflict check per entry against the pre-batch table.  The
batch is however not equivalent to the per-entry policy: on an identity
conflict it overwrites the existing entry (see the counterexample). -/
theorem c2_theorem (s : NameCollector) (imp : Option ImportedFrom)
    (l1 l2 : DefinitionsByName) (hperm : l1.Perm l2)
    (hnd : (l1.map Prod.fst).Nodup) :
    (∀ k, getEntry (s.collectDefinitions l1 imp).definitionsByName k =
        getEntry (s.collectDefinitions l2 imp).definitionsByName k) ∧
    ((s.collectDefinitions l1 imp).errors).Perm ((s.collectDefinitions l2 imp).errors) ∧
    (s.collectDefinitions l1 imp).errors =
      s.errors ++ conflictsFor s.definitionsByName s.currentModuleName l1 := by
  have hnd2 : (l2.map Prod.fst).Nodup := ((hperm.map Prod.fst).nodup_iff).mp hnd
  refine ⟨?_, ?_, rfl⟩
  · intro k
    rw [collectDefinitions_getEntry s imp l1 hnd k,
      collectDefinitions_getEntry s imp l2 hnd2 k,
      getEntry_perm hperm hnd k]
  · show (s.errors ++ conflictsFor s.definitionsByName s.currentModuleName l1).Perm
      (s.errors ++ conflictsFor s.definitionsByName s.currentModuleName l2)
    exact (conflictsFor_perm _ _ hperm).append_left _

/-- Witness for C2: a two-definition batch and its reversal, collected into a
fresh module M, agree on the binding of a and have the same diagnostics up to
permutation. -/
theorem c2_witness :
    batch1.Perm batch2 ∧
      getEntry (stateM.collectDefinitions batch1 none).definitionsByName "a" =
        getEntry (stateM.collectDefinitions batch2 none).definitionsByName "a" ∧
      ((stateM.collectDefinitions batch1 none).errors).Perm
        ((stateM.collectDefinitions batch2 none).errors) :=
  ⟨by decide,
   (c2_theorem stateM none batch1 batch2 (by decide) (by decide)).1 "a",
   (c2_theorem stateM none batch1 batch2 (by decide) (by decide)).2.1⟩

end Quint

namespace Quint

/-- The namespaces method only reads the current module name, so updating the
definition table leaves its result unchanged. -/
theorem namespacesFor_update (s : NameCollector) (t : DefinitionsByName)
    (f : ImportedFrom) :
    ({ s with definitionsByName := t } : NameCollector).namespacesFor f =
      s.namespacesFor f := by
  cases f <;> rfl

/-- The collected record only depends on the current module name, so updating
the definition table leaves it unchanged. -/
theorem collectedEntry_update (s : NameCollector) (t : DefinitionsByName)
    (imp : Option ImportedFrom) (d : LookupDefinition) :
    collectedEntry ({ s with definitionsByName := t }) imp d =
      collectedEntry s imp d := by
  cases imp with
  | none => rfl
  | some f => simp [collectedEntry, namespacesFor_update]

/-- The insert path of collectDefinition: when the identifier is not an
underscore, not a built-in, and any existing binding carries the same source
identity, the definition record is stored and nothing else changes. -/
theorem collectDefinition_insert (s : NameCollector) (d : LookupDefinition)
    (imp : Option ImportedFrom)
    (hu : identifierOf d imp ≠ "_") (hb : identifierOf d imp ∉ builtinNames)
    (hid : ∀ d0, getEntry s.definitionsByName (identifierOf d imp) = some d0 →
      d0.id = d.id) :
    s.collectDefinition d imp =
      { s with definitionsByName :=
          setEntry s.definitionsByName (identifierOf d imp) (collectedEntry s imp d) } := by
  cases hget : getEntry s.definitionsByName (identifierOf d imp) with
  | none => simp [NameCollector.collectDefinition, hu, hb, hget, collectedEntry]
  | some d0 =>
    simp [NameCollector.collectDefinition, hu, hb, hget, hid d0 hget, collectedEntry]

/-- Claim C6, counterexample: in a state whose table binds the built-in name
assert to a definition with source identity 7 (such a binding is only
reachable through the batch path, which does not filter built-ins),
re-collecting the very same definition with the same arguments produces a
diagnostic, and doing it twice is not the same as doing it once — refuting the
claim as universally stated; the table itself stays unchanged. -/
theorem c6_counterexample :
    getEntry builtinBoundState.definitionsByName "assert" =
        some (sampleDef "assert" 7) ∧
      (builtinBoundState.collectDefinition (sampleDef "assert" 7) none).errors ≠
        builtinBoundState.errors ∧
      ((builtinBoundState.collectDefinition (sampleDef "assert" 7) none).collectDefinition
          (sampleDef "assert" 7) none) ≠
        builtinBoundState.collectDefinition (sampleDef "assert" 7) none := by
  refine ⟨rfl, ?_, ?_⟩ <;> decide

/-- Claim C6 (amended): collecting the same definition twice with the same
arguments is idempotent provided the identifier is not a reserved built-in
name: when every existing binding of the identifier carries the same source
identity as the definition, the second call changes no table content and
produces no diagnostic.  (A built-in identifier records a built-in conflict
diagnostic on every attempt, even when already bound with the same identity,
though the table still does not change.) -/
theorem c6_theorem (s : NameCollector) (d : LookupDefinition)
    (imp : Option ImportedFrom)
    (hb : identifierOf d imp ∉ builtinNames)
    (hid : ∀ d0, getEntry s.definitionsByName (identifierOf d imp) = some d0 →
      d0.id = d.id) :
    (s.collectDefinition d imp).collectDefinition d imp = s.collectDefinition d imp := by
  by_cases hu : identifierOf d imp = "_"
  · simp [NameCollector.collectDefinition, hu]
  · have h1 := collectDefinition_insert s d imp hu hb hid
    have hid2 : ∀ d0, getEntry (s.collectDefinition d imp).definitionsByName
        (identifierOf d imp) = some d0 → d0.id = d.id := by
      intro d0 hg
      rw [h1] at hg
      rw [getEntry_setEntry_self] at hg
      injection hg with h
      rw [← h]
      simp [collectedEntry, addNamespacesToDef]
    have h2 := collectDefinition_insert (s.collectDefinition d imp) d imp hu hb hid2
    rw [h2, h1]
    simp [collectedEntry_update, setEntry_idem]

/-- Witness for C6: collecting the fresh definition y twice into an empty
module is the same as collecting it once. -/
theorem c6_witness :
    (sampleDef "y" 3).name ∉ builtinNames ∧
      ((stateM.collectDefinition (sampleDef "y" 3) none).collectDefinition
          (sampleDef "y" 3) none) =
        stateM.collectDefinition (sampleDef "y" 3) none :=
  ⟨by decide,
   c6_theorem stateM (sampleDef "y" 3) none (by decide)
     (fun d0 hg => by simp [stateM, getEntry] at hg)⟩

end Quint

namespace Quint

/-- Claim C4 (confirmed): for an instance declaration with an override
(param, expr): a parameter absent from the cloned table records a
PARAM-NOT-FOUND error and leaves the table alone; a parameter present with a
kind other than const records a PARAM-NOT-CONST error and leaves the table
alone; a parameter present with kind const has its entry re-pointed at the
override expression, so that for a registered module M with constant c and
qualifier I, the resulting entry for I::c carries the source identity of the
override expression, not the original identity of c. -/
theorem c4_theorem :
    (∀ (decl : QuintInstance) (table : DefinitionsByName) (errs : List QuintError)
        (param : QuintLambdaParameter) (ex : QuintEx),
      getEntry table param.name = none →
      applyOverride decl (table, errs) (param, ex) =
        (table, errs ++ [paramNotFoundError decl param])) ∧
    (∀ (decl : QuintInstance) (table : DefinitionsByName) (errs : List QuintError)
        (param : QuintLambdaParameter) (ex : QuintEx) (d : LookupDefinition),
      getEntry table param.name = some d → d.kind ≠ DefKind.const →
      applyOverride decl (table, errs) (param, ex) =
        (table, errs ++ [paramIsNotAConstantError decl param])) ∧
    (∀ (s : NameCollector) (decl : QuintInstance) (mt : DefinitionsByName)
        (q : String) (param : QuintLambdaParameter) (ex : QuintEx)
        (d : LookupDefinition),
      decl.protoName ≠ s.currentModuleName →
      getEntry s.definitionsByModule decl.protoName = some mt →
      decl.qualifiedName = some q →
      decl.overrides = [(param, ex)] →
      (mt.map Prod.fst).Nodup →
      getEntry mt param.name = some d → d.kind = DefKind.const →
      getEntry mt (q ++ "::" ++ param.name) = none →
      ((s.enterInstance decl).getDefinition (q ++ "::" ++ param.name)).map
        LookupDefinition.id = some ex.id) := by
  refine ⟨?_, ?_, ?_⟩
  · intro decl table errs param ex h
    simp [applyOverride, h]
  · intro decl table errs param ex d h hk
    simp [applyOverride, h, hk]
  · intro s decl mt q param ex d hproto hreg hq hov hnd hc hkind hKnone
    have e1 : s.enterInstance decl =
        (({ s with
            errors := s.errors
            definitionsByModule := setEntry s.definitionsByModule q
              (setEntry mt param.name { d with id := ex.id }) } : NameCollector).collectDefinitions
          (copyNames (setEntry mt param.name { d with id := ex.id }) (some q) true)
          (some (.inst decl))) := by
      simp [NameCollector.enterInstance, hproto, hreg, hov, hq, applyOverride, hc, hkind]
    rw [e1]
    have hiTnd : ((setEntry mt param.name { d with id := ex.id }).map Prod.fst).Nodup :=
      nodupKeys_setEntry _ _ _ hnd
    have hmem : (param.name, ({ d with id := ex.id } : LookupDefinition)) ∈
        setEntry mt param.name { d with id := ex.id } :=
      mem_of_getEntry_eq_some (getEntry_setEntry_self _ _ _)
    have hKnotin : (q ++ "::" ++ param.name) ∉
        (setEntry mt param.name { d with id := ex.id }).map Prod.fst := by
      apply (getEntry_eq_none_iff _ _).mp
      rw [getEntry_setEntry_ne _ _ _ _ (Ne.symm (qualified_ne q param.name))]
      exact hKnone
    have hnew : getEntry (copyNames (setEntry mt param.name { d with id := ex.id })
        (some q) true) (q ++ "::" ++ param.name) =
        some ({ d with id := ex.id } : LookupDefinition) :=
      copyNamesGo_qualified q true _ [] param.name _ hiTnd hmem hKnotin
    show (getEntry (NameCollector.collectDefinitions _ _ _).definitionsByName
      (q ++ "::" ++ param.name)).map LookupDefinition.id = some ex.id
    rw [collectDefinitions_getEntry _ _ _
      (nodupKeys_copyNames (setEntry mt param.name { d with id := ex.id }) (some q) true) _]
    rw [hnew]
    simp [collectedEntry, addNamespacesToDef]

end Quint

namespace Quint

/-- Witness for C4 at concrete inputs: an absent parameter z records
PARAM-NOT-FOUND and keeps the table; a non-constant parameter v records
PARAM-NOT-CONST and keeps the table; instance M as I with override c = (id 77)
over the registry holding M with constant c (identity 10) yields I::c with
identity 77. -/
theorem c4_witness :
    applyOverride sampleInstance ([], []) ({ id := 1, name := "z" }, { id := 3 }) =
        ([], [] ++ [paramNotFoundError sampleInstance { id := 1, name := "z" }]) ∧
      applyOverride sampleInstance ([("v", sampleDef "v" 6)], [])
          ({ id := 2, name := "v" }, { id := 3 }) =
        ([("v", sampleDef "v" 6)],
          [] ++ [paramIsNotAConstantError sampleInstance { id := 2, name := "v" }]) ∧
      ((instRegistryState.enterInstance sampleInstance).getDefinition "I::c").map
        LookupDefinition.id = some 77 :=
  ⟨c4_theorem.1 sampleInstance [] [] { id := 1, name := "z" } { id := 3 } rfl,
   c4_theorem.2.1 sampleInstance [("v", sampleDef "v" 6)] [] { id := 2, name := "v" }
     { id := 3 } (sampleDef "v" 6) rfl (by decide),
   c4_theorem.2.2 instRegistryState sampleInstance [("c", sampleConst "c" 10)] "I"
     { id := 50, name := "c" } { id := 77 } (sampleConst "c" 10) (by decide) rfl rfl rfl
     (by decide) rfl rfl rfl⟩

end Quint
